import Mathlib

/-
Verification of the post-training rollout engine of src/main.py
(CTF-for-Science/spacetime), the code at main.py lines 148-226.

Modelling conventions (shallow embedding):

Signal matrices are modelled by the structure SMat: explicit row and column
counts plus a total entry function.  Entries outside the stated bounds are
junk, exactly as numpy never looks at out-of-bounds positions.

The matrices data_mat built at main.py lines 166 and 209 are time-major
(rows index timesteps, columns index channels): the code slices them by
timestep ranges (lines 170 and 210) and feeds the slices to the model,
whose interface consumes a lag-by-channels window.  Our dataMat parameters
stand for these already-transposed matrices.

The external forecast_model call (main.py lines 172-175 and 212-215,
implemented in train.py which is outside src/) is modelled by an abstract
function fm : SMat a -> Nat -> SMat a taking the start window and n_out.
The input/output transforms are passed into forecast_model by the code and
are therefore absorbed into fm.  Where a claim needs the Forecast Model
interface of the spec (output has exactly n_out rows and the channel count
of the data), it is a hypothesis on fm.

numpy/torch operations are embedded with python semantics:
  A[a:b, :]            -> rowSlice (slice clipping, never an error)
  A[-n:, :]            -> lastRows
  A.T                  -> tr
  A.squeeze().T        -> squeezeT (none when the array drops below 2
                          dimensions, making the following axis=1
                          concatenate raise ValueError)
  np.concatenate axis=1-> hcat
  torch.cat (dim 0)    -> vcat
  A[:, 0:n]            -> colTrim
The while loop at main.py lines 169-185 is embedded with explicit fuel;
running out of fuel returns none, so termination statements are
"some result for an explicitly given fuel".  The first loop iteration also
returns none when the squeeze at line 178 collapses the seed window (a
1-row or single-channel window) and line 180's np.concatenate therefore
raises: in the real program that exception aborts the run after the first
model call, so no final state exists.
-/

namespace SpacetimeRollout

/-- A two-dimensional signal matrix: row count, column count and a total
entry function.  Positions outside the bounds are junk values that no
theorem depends on. -/
structure SMat (α : Type) where
  rows : Nat
  cols : Nat
  entry : Nat → Nat → α

/-- Transpose, numpy A.T. -/
def tr {α : Type} (A : SMat α) : SMat α :=
  ⟨A.cols, A.rows, fun i j => A.entry j i⟩

/-- Horizontal concatenation, np.concatenate([A, B], axis=1) for matrices
with equal row counts (numpy raises otherwise; theorems carry the row-count
hypotheses where it matters). -/
def hcat {α : Type} (A B : SMat α) : SMat α :=
  ⟨A.rows, A.cols + B.cols,
   fun i j => if j < A.cols then A.entry i j else B.entry i (j - A.cols)⟩

/-- Vertical concatenation, torch.cat([A, B]) along dim 0 (main.py line 219). -/
def vcat {α : Type} (A B : SMat α) : SMat α :=
  ⟨A.rows + B.rows, A.cols,
   fun i j => if i < A.rows then A.entry i j else B.entry (i - A.rows) j⟩

/-- Python row slice A[a:b, :] with python clipping semantics: the result has
min b rows - min a rows rows and is never an error, even when the range runs
past the end of the matrix. -/
def rowSlice {α : Type} (A : SMat α) (a b : Nat) : SMat α :=
  ⟨min b A.rows - min a A.rows, A.cols,
   fun i j => A.entry (min a A.rows + i) j⟩

/-- Python negative-index slice A[-n:, :] (main.py line 210): the last n rows,
the whole matrix when n exceeds the row count (natural subtraction clips). -/
def lastRows {α : Type} (A : SMat α) (n : Nat) : SMat α :=
  rowSlice A (A.rows - n) A.rows

/-- Column trim A[:, 0:n] (main.py line 186). -/
def colTrim {α : Type} (A : SMat α) (n : Nat) : SMat α :=
  ⟨A.rows, min n A.cols, A.entry⟩

/-- The input window of reconstruction step i:
data_mat[start_idx*horizon : start_idx*horizon + lag, :] (main.py line 170). -/
def reconWindow {α : Type} (dataMat : SMat α) (lag horizon i : Nat) : SMat α :=
  rowSlice dataMat (i * horizon) (i * horizon + lag)

/-- State of the reconstruction while loop (main.py lines 167-185):
the accumulator output_mat_full (channel-major, as the code concatenates the
transposed pieces along axis 1), the cursor start_idx, and the list of
(start window, n_out) arguments of every forecast_model call made so far.
The call list is observational instrumentation: it records what the code
passes to the external model at lines 172-175. -/
structure ReconState (α : Type) where
  acc : SMat α
  startIdx : Nat
  calls : List (SMat α × Nat)

/-- The while loop of main.py lines 169-185 after its first iteration:
while output_mat_full.shape[1] < output_timesteps, extract the window at
start_idx*horizon, call the model for horizon steps, append the transposed
output along axis 1, increment start_idx.  Fuel bounds the number of further
iterations; none means the fuel ran out with the loop still running. -/
def reconAfter {α : Type} (fm : SMat α → Nat → SMat α) (dataMat : SMat α)
    (lag horizon N : Nat) : Nat → ReconState α → Option (ReconState α)
  | 0, st => if N ≤ st.acc.cols then some st else none
  | fuel + 1, st =>
    if N ≤ st.acc.cols then some st
    else
      reconAfter fm dataMat lag horizon N fuel
        ⟨hcat st.acc (tr (fm (reconWindow dataMat lag horizon st.startIdx) horizon)),
         st.startIdx + 1,
         st.calls ++ [(reconWindow dataMat lag horizon st.startIdx, horizon)]⟩

/-- The seed piece np.asarray(data_mat_tmp.squeeze().T) of main.py line 178
together with the dimensionality requirement of the np.concatenate at line
180.  squeeze removes every length-1 axis: a window with exactly one row or
exactly one column (single-channel data) collapses to a 1-dimensional array
(a 1-by-1 window to 0-dimensional), and np.concatenate along axis=1 with
the 2-dimensional transposed model output of line 177 then raises
ValueError - the run aborts.  Otherwise squeeze is a no-op and the piece is
the plain transpose.  A zero-length axis is not removed by squeeze, so only
the two length-1 cases abort. -/
def squeezeT {α : Type} (A : SMat α) : Option (SMat α) :=
  if A.rows = 1 ∨ A.cols = 1 then none else some (tr A)

/-- The full reconstruction rollout of main.py lines 167-185.  The first
iteration always runs (output_mat_full is None), takes the window at index 0,
and seeds the accumulator with np.concatenate([data_mat_tmp, output_mat],
axis=1) - the squeezed and transposed raw window (line 178) prepended to the
first model output (line 180).  When the squeeze collapses the window below
2 dimensions, line 180 raises ValueError and the run aborts (after the model
call of line 172): the result is none, and the call made before the abort is
not modelled.  Subsequent iterations are reconAfter; at start_idx >= 1 the
squeezed window of line 178 is computed but unused (line 182 concatenates
output_mat_full with output_mat only), so no further abort is possible there.
The final trim to output_timesteps columns (line 186) is applied by the
callers via colTrim. -/
def reconRun {α : Type} (fm : SMat α → Nat → SMat α) (dataMat : SMat α)
    (lag horizon N fuel : Nat) : Option (ReconState α) :=
  match squeezeT (reconWindow dataMat lag horizon 0) with
  | none => none
  | some s =>
    reconAfter fm dataMat lag horizon N fuel
      ⟨hcat s (tr (fm (reconWindow dataMat lag horizon 0) horizon)),
       1,
       [(reconWindow dataMat lag horizon 0, horizon)]⟩

/-- Forecast-mode rollout of main.py lines 209-219: seed with the last lag
rows of the history (line 210), call the model once for n timesteps
(lines 212-215), and when the initial-condition flag is set (pair ids 8, 9)
prepend the seed with torch.cat (lines 218-219).  Returns the assembled
time-major matrix together with the singleton list of model-call arguments. -/
def forecastAssemble {α : Type} (fm : SMat α → Nat → SMat α) (dataMat : SMat α)
    (lag n : Nat) (ic : Bool) : SMat α × List (SMat α × Nat) :=
  (if ic then vcat (lastRows dataMat lag) (fm (lastRows dataMat lag) n)
   else fm (lastRows dataMat lag) n,
   [(lastRows dataMat lag, n)])

/-- What the post-training section produces: nothing persisted (dataset-name
guard at main.py line 148 fails), no final state from the reconstruction
loop (the ValueError at line 180 aborted the run, or the fuel ran out -
either way nothing reaches torch.save and the call list is not modelled),
or a matrix handed to torch.save at line 226. -/
inductive RunOutcome (α : Type) where
  | noOutput
  | diverged
  | saved (m : SMat α)

/-- Result of the post-training section: the persistence outcome plus the
list of (start window, n_out) arguments of every forecast_model call. -/
structure MainResult (α : Type) where
  outcome : RunOutcome α
  calls : List (SMat α × Nat)

/-- The dataset names of the guard at main.py line 148. -/
def datasetNames : List String :=
  ["ODE_Lorenz", "PDE_KS", "KS_Official", "Lorenz_Official"]

/-- Mode selector: args.pair_id in [2, 4] (main.py line 157). -/
def isRecon (pairId : Nat) : Bool := pairId == 2 || pairId == 4

/-- Initial-condition selector: args.pair_id in [8, 9]
(main.py lines 194, 202, 218). -/
def isIC (pairId : Nat) : Bool := pairId == 8 || pairId == 9

/-- The data the external loaders hand back for one regime (validation or
not, main.py lines 159-164 and 192-207): the first training matrix and the
initial-condition matrix, both already transposed to time-major as at lines
166 and 209, plus the row count of the externally supplied prediction
timesteps. -/
structure LoadedData (α : Type) where
  trainMat : SMat α
  initMat : SMat α
  fullSteps : Nat

/-- The post-training section of main.py (lines 148-226) for one loaded-data
record d (selected by the validation flag in mainAfterTraining):
inside the dataset-name guard, pair ids 2 and 4 run the reconstruction
rollout on d.trainMat with N = d.fullSteps and trim to N columns
(lines 157-187); every other pair id runs forecast mode, where pair ids
8 and 9 seed from d.initMat, request d.fullSteps - lag timesteps and prepend
the seed, and all remaining pair ids seed from d.trainMat and request
d.fullSteps timesteps (lines 190-219); the saved matrix in forecast mode is
the transpose of the assembled time-major matrix (line 220), while in
reconstruction mode the accumulator is saved as built, channel-major
(lines 186-187, 226). -/
def mainBody {α : Type} (dsName : String) (pairId : Nat) (d : LoadedData α)
    (sizeLag sizeHorizon : Nat) (fm : SMat α → Nat → SMat α) (fuel : Nat) :
    MainResult α :=
  if dsName ∈ datasetNames then
    if isRecon pairId then
      match reconRun fm d.trainMat sizeLag sizeHorizon d.fullSteps fuel with
      | none => ⟨RunOutcome.diverged, []⟩
      | some st => ⟨RunOutcome.saved (colTrim st.acc d.fullSteps), st.calls⟩
    else
      let dataMat := if isIC pairId then d.initMat else d.trainMat
      let n := if isIC pairId then d.fullSteps - sizeLag else d.fullSteps
      let fc := forecastAssemble fm dataMat sizeLag n (isIC pairId)
      ⟨RunOutcome.saved (tr fc.1), fc.2⟩
  else ⟨RunOutcome.noOutput, []⟩

/-- The post-training section with the validation flag: the flag only selects
which externally loaded data feeds the rollout (main.py lines 159-164 and
192-207); the control flow is otherwise identical. -/
def mainAfterTraining {α : Type} (dsName : String) (pairId : Nat)
    (validation : Bool) (test val : LoadedData α) (sizeLag sizeHorizon : Nat)
    (fm : SMat α → Nat → SMat α) (fuel : Nat) : MainResult α :=
  mainBody dsName pairId (if validation then val else test) sizeLag sizeHorizon fm fuel

/-- The matrix handed to torch.save (main.py line 226), when one is. -/
def savedMatrix {α : Type} (r : MainResult α) : Option (SMat α) :=
  match r.outcome with
  | RunOutcome.saved m => some m
  | _ => none

/-- The engine parameters as main.py builds them: lag and horizon are read
from the dataset size metadata, size[0] and size[2] (lines 153-154), while
the model object is configured with args.lag and args.horizon (lines 87-88),
here a model factory applied to those two arguments. -/
def mainWithArgs {α : Type} (dsName : String) (pairId : Nat) (validation : Bool)
    (test val : LoadedData α) (dsSize : List Nat) (argsLag argsHorizon : Nat)
    (mkModel : Nat → Nat → SMat α → Nat → SMat α) (fuel : Nat) : MainResult α :=
  mainAfterTraining dsName pairId validation test val
    (dsSize.getD 0 0) (dsSize.getD 2 0) (mkModel argsLag argsHorizon) fuel

/-- Ceiling division on naturals. -/
def ceilDiv (x h : Nat) : Nat := (x + h - 1) / h

/-- Number of iterations the reconstruction while loop actually performs:
the first iteration always runs and already contributes lag + horizon
columns, so the count is the least k with 1 <= k and N <= lag + k * horizon,
which is max 1 of the ceiling of (N - lag) / horizon. -/
def callCount (lag horizon N : Nat) : Nat := max 1 (ceilDiv (N - lag) horizon)

theorem ceilDiv_zero (h : Nat) (hh : 1 ≤ h) : ceilDiv 0 h = 0 := by
  unfold ceilDiv
  exact Nat.div_eq_of_lt (by omega)

theorem ceilDiv_eq_one (x h : Nat) (hx : 1 ≤ x) (hxh : x ≤ h) : ceilDiv x h = 1 := by
  have h1 : x + h - 1 = (x - 1) + h := by omega
  unfold ceilDiv
  rw [h1, Nat.add_div_right _ (by omega), Nat.div_eq_of_lt (by omega)]

theorem ceilDiv_succ (x h : Nat) (hx : 1 ≤ x) (hh : 1 ≤ h) :
    ceilDiv x h = ceilDiv (x - h) h + 1 := by
  rcases le_or_lt x h with hle | hlt
  · rw [ceilDiv_eq_one x h hx hle, Nat.sub_eq_zero_of_le hle, ceilDiv_zero h hh]
  · have h1 : x + h - 1 = ((x - h) + h - 1) + h := by omega
    unfold ceilDiv
    rw [h1, Nat.add_div_right _ (by omega)]

theorem ceilDiv_pos (x h : Nat) (hx : 1 ≤ x) (hh : 1 ≤ h) : 1 ≤ ceilDiv x h := by
  unfold ceilDiv
  rw [Nat.le_div_iff_mul_le (by omega)]
  omega

theorem le_ceilDiv_mul (x h : Nat) (hh : 1 ≤ h) : x ≤ ceilDiv x h * h := by
  induction x using Nat.strong_induction_on with
  | _ x ih =>
    rcases Nat.eq_zero_or_pos x with rfl | hx
    · exact Nat.zero_le _
    · rcases le_or_lt x h with hle | hlt
      · rw [ceilDiv_eq_one x h hx hle, one_mul]; exact hle
      · rw [ceilDiv_succ x h hx hh]
        have hstep : (ceilDiv (x - h) h + 1) * h = ceilDiv (x - h) h * h + h := by ring
        have hrec : x - h ≤ ceilDiv (x - h) h * h := ih (x - h) (by omega)
        omega

theorem ceilDiv_pred_mul_lt (x h : Nat) (hx : 1 ≤ x) (hh : 1 ≤ h) :
    (ceilDiv x h - 1) * h < x := by
  induction x using Nat.strong_induction_on with
  | _ x ih =>
    rcases le_or_lt x h with hle | hlt
    · rw [ceilDiv_eq_one x h hx hle]
      simpa using hx
    · rw [ceilDiv_succ x h hx hh, Nat.add_sub_cancel]
      have hsub : 1 ≤ x - h := by omega
      have hrec : (ceilDiv (x - h) h - 1) * h < x - h := ih (x - h) (by omega) hsub
      have hpos : 1 ≤ ceilDiv (x - h) h := ceilDiv_pos (x - h) h hsub hh
      have hstep : ceilDiv (x - h) h * h = (ceilDiv (x - h) h - 1) * h + h := by
        obtain ⟨c, hc⟩ : ∃ c, ceilDiv (x - h) h = c + 1 := ⟨ceilDiv (x - h) h - 1, by omega⟩
        rw [hc, Nat.add_sub_cancel]
        ring
      omega

/-- Bridge between the loop-shaped count 1 + ceil((N - (lag + horizon)) / horizon)
and the closed form callCount. -/
theorem one_add_ceilDiv_eq_callCount (lag horizon N : Nat) (hh : 1 ≤ horizon) :
    1 + ceilDiv (N - (lag + horizon)) horizon = callCount lag horizon N := by
  unfold callCount
  rcases le_or_lt N (lag + horizon) with hle | hlt
  · have h0 : N - (lag + horizon) = 0 := by omega
    rw [h0, ceilDiv_zero horizon hh]
    rcases Nat.eq_zero_or_pos (N - lag) with hz | hp
    · rw [hz, ceilDiv_zero horizon hh]
      simp
    · rw [ceilDiv_eq_one (N - lag) horizon hp (by omega)]
      simp
  · have hx : 1 ≤ N - lag := by omega
    rw [ceilDiv_succ (N - lag) horizon hx hh]
    have hsub : N - lag - horizon = N - (lag + horizon) := by omega
    rw [hsub]
    omega

theorem callCount_pos (lag horizon N : Nat) : 1 ≤ callCount lag horizon N :=
  le_max_left 1 _

theorem hcat_cols {α : Type} (A B : SMat α) : (hcat A B).cols = A.cols + B.cols := rfl

theorem hcat_rows {α : Type} (A B : SMat α) : (hcat A B).rows = A.rows := rfl

theorem hcat_entry_left {α : Type} (A B : SMat α) (i j : Nat) (hj : j < A.cols) :
    (hcat A B).entry i j = A.entry i j := by
  simp [hcat, hj]

theorem tr_cols {α : Type} (A : SMat α) : (tr A).cols = A.rows := rfl

theorem tr_rows {α : Type} (A : SMat α) : (tr A).rows = A.cols := rfl

theorem range_succ_map_shift {β : Type} (m : Nat) (g : Nat → β) :
    (List.range (m + 1)).map g = g 0 :: (List.range m).map (fun t => g (t + 1)) := by
  rw [List.range_succ_eq_map]
  simp [List.map_map]

/-- Full characterisation of the tail of the reconstruction while loop,
by induction on the fuel.  Writing c for the accumulator width on entry and
m for the ceiling of (N - c) / horizon, the loop performs exactly m further
model calls, makes the accumulator exactly m * horizon columns wider without
touching the columns already present, advances start_idx by m, and appends
the m ground-truth windows at start positions startIdx * horizon,
(startIdx + 1) * horizon, ... to the call list. -/
theorem reconAfter_spec {α : Type} (fm : SMat α → Nat → SMat α) (dataMat : SMat α)
    (lag horizon N : Nat) (hh : 1 ≤ horizon) (hfm : ∀ w n, (fm w n).rows = n) :
    ∀ (fuel : Nat) (st : ReconState α), N ≤ st.acc.cols + fuel * horizon →
      ∃ st', reconAfter fm dataMat lag horizon N fuel st = some st' ∧
        st'.acc.rows = st.acc.rows ∧
        st'.acc.cols = st.acc.cols + ceilDiv (N - st.acc.cols) horizon * horizon ∧
        st'.startIdx = st.startIdx + ceilDiv (N - st.acc.cols) horizon ∧
        st'.calls = st.calls ++ (List.range (ceilDiv (N - st.acc.cols) horizon)).map
          (fun t => (reconWindow dataMat lag horizon (st.startIdx + t), horizon)) ∧
        (∀ i j, j < st.acc.cols → st'.acc.entry i j = st.acc.entry i j) ∧
        N ≤ st'.acc.cols := by
  intro fuel
  induction fuel with
  | zero =>
    intro st hN
    have hc : N ≤ st.acc.cols := by simpa using hN
    have hm : N - st.acc.cols = 0 := by omega
    refine ⟨st, ?_, rfl, ?_, ?_, ?_, fun i j _ => rfl, hc⟩
    · simp [reconAfter, hc]
    · rw [hm, ceilDiv_zero horizon hh]
      simp
    · rw [hm, ceilDiv_zero horizon hh]
      simp
    · rw [hm, ceilDiv_zero horizon hh]
      simp
  | succ fuel ih =>
    intro st hN
    by_cases hc : N ≤ st.acc.cols
    · have hm : N - st.acc.cols = 0 := by omega
      refine ⟨st, ?_, rfl, ?_, ?_, ?_, fun i j _ => rfl, hc⟩
      · simp [reconAfter, hc]
      · rw [hm, ceilDiv_zero horizon hh]
        simp
      · rw [hm, ceilDiv_zero horizon hh]
        simp
      · rw [hm, ceilDiv_zero horizon hh]
        simp
    · set w := reconWindow dataMat lag horizon st.startIdx with hw
      set st₂ : ReconState α :=
        ⟨hcat st.acc (tr (fm w horizon)), st.startIdx + 1, st.calls ++ [(w, horizon)]⟩
        with hst₂
      have hcols₂ : st₂.acc.cols = st.acc.cols + horizon := by
        simp [hst₂, hcat_cols, tr_cols, hfm]
      have hpre : N ≤ st₂.acc.cols + fuel * horizon := by
        have hmul : (fuel + 1) * horizon = fuel * horizon + horizon := by ring
        omega
      obtain ⟨st', heq, hrows', hcols', hsi', hcalls', hent', hN'⟩ := ih st₂ hpre
      have hstep : reconAfter fm dataMat lag horizon N (fuel + 1) st =
          reconAfter fm dataMat lag horizon N fuel st₂ := by
        simp [reconAfter, hc, hst₂, hw]
      have hcd : ceilDiv (N - st.acc.cols) horizon =
          ceilDiv (N - st₂.acc.cols) horizon + 1 := by
        rw [hcols₂]
        have h1 : (1 : Nat) ≤ N - st.acc.cols := by omega
        have h2 : N - st.acc.cols - horizon = N - (st.acc.cols + horizon) := by omega
        rw [ceilDiv_succ (N - st.acc.cols) horizon h1 hh, h2]
      have hsi₂ : st₂.startIdx = st.startIdx + 1 := rfl
      have hca₂ : st₂.calls = st.calls ++ [(w, horizon)] := rfl
      refine ⟨st', by rw [hstep]; exact heq, ?_, ?_, ?_, ?_, ?_, hN'⟩
      · rw [hrows']
        simp [hst₂, hcat_rows]
      · rw [hcols', hcd, hcols₂]
        have hm1 : (ceilDiv (N - (st.acc.cols + horizon)) horizon + 1) * horizon =
            ceilDiv (N - (st.acc.cols + horizon)) horizon * horizon + horizon := by ring
        omega
      · rw [hsi', hcd, hcols₂, hsi₂]
        omega
      · rw [hcalls', hcd, hcols₂, hsi₂, hca₂, List.append_assoc]
        congr 1
        rw [range_succ_map_shift, List.singleton_append]
        congr 1
        apply List.map_congr_left
        intro t _
        have ht : st.startIdx + 1 + t = st.startIdx + (t + 1) := by omega
        rw [ht]
      · intro i j hj
        have hj₂ : j < st₂.acc.cols := by omega
        rw [hent' i j hj₂]
        exact hcat_entry_left st.acc (tr (fm w horizon)) i j hj

/-- Placement of the trim point when lag <= N: the trim point N lies inside
the block of columns contributed by the final model call. -/
theorem callCount_bounds (lag horizon N : Nat) (hh : 1 ≤ horizon) (hln : lag ≤ N) :
    lag + (callCount lag horizon N - 1) * horizon ≤ N ∧
      N ≤ lag + callCount lag horizon N * horizon := by
  unfold callCount
  rcases Nat.eq_zero_or_pos (N - lag) with hz | hp
  · rw [hz, ceilDiv_zero horizon hh]
    have hmx : max 1 0 = 1 := by simp
    rw [hmx]
    omega
  · have hmax : max 1 (ceilDiv (N - lag) horizon) = ceilDiv (N - lag) horizon :=
      Nat.max_eq_right (ceilDiv_pos (N - lag) horizon hp hh)
    rw [hmax]
    constructor
    · have := ceilDiv_pred_mul_lt (N - lag) horizon hp hh
      omega
    · have := le_ceilDiv_mul (N - lag) horizon hh
      omega

theorem rowSlice_cols {α : Type} (A : SMat α) (a b : Nat) :
    (rowSlice A a b).cols = A.cols := rfl

theorem lastRows_cols {α : Type} (A : SMat α) (n : Nat) :
    (lastRows A n).cols = A.cols := rfl

theorem lastRows_rows {α : Type} (A : SMat α) (n : Nat) (h : n ≤ A.rows) :
    (lastRows A n).rows = n := by
  simp [lastRows, rowSlice]
  omega

theorem reconWindow_zero_rows {α : Type} (A : SMat α) (lag horizon : Nat)
    (hT : lag ≤ A.rows) : (reconWindow A lag horizon 0).rows = lag := by
  simp [reconWindow, rowSlice, Nat.zero_mul]
  omega

theorem reconWindow_zero_rows_min {α : Type} (A : SMat α) (lag horizon : Nat) :
    (reconWindow A lag horizon 0).rows = min lag A.rows := by
  simp [reconWindow, rowSlice, Nat.zero_mul]

theorem reconWindow_cols {α : Type} (A : SMat α) (lag horizon i : Nat) :
    (reconWindow A lag horizon i).cols = A.cols := rfl

/-- When the first window keeps two dimensions through the squeeze of main.py
line 178 (neither a single row nor a single channel), the reconstruction
rollout is the loop started from the seeded accumulator of line 180. -/
theorem reconRun_eq_of_wellFormed {α : Type} (fm : SMat α → Nat → SMat α)
    (dataMat : SMat α) (lag horizon N fuel : Nat)
    (hnot : ¬((reconWindow dataMat lag horizon 0).rows = 1 ∨
      (reconWindow dataMat lag horizon 0).cols = 1)) :
    reconRun fm dataMat lag horizon N fuel =
      reconAfter fm dataMat lag horizon N fuel
        ⟨hcat (tr (reconWindow dataMat lag horizon 0))
              (tr (fm (reconWindow dataMat lag horizon 0) horizon)),
         1, [(reconWindow dataMat lag horizon 0, horizon)]⟩ := by
  simp only [reconRun, squeezeT]
  rw [if_neg hnot]

/-- When the squeeze of main.py line 178 collapses the first window (one row,
or one channel), the np.concatenate of line 180 raises ValueError on the
first iteration and the run aborts: no final state exists for any fuel. -/
theorem reconRun_crash {α : Type} (fm : SMat α → Nat → SMat α)
    (dataMat : SMat α) (lag horizon N : Nat)
    (h : (reconWindow dataMat lag horizon 0).rows = 1 ∨ dataMat.cols = 1) :
    ∀ fuel, reconRun fm dataMat lag horizon N fuel = none := by
  intro fuel
  have h2 : (reconWindow dataMat lag horizon 0).rows = 1 ∨
      (reconWindow dataMat lag horizon 0).cols = 1 := by
    rw [reconWindow_cols]
    exact h
  simp only [reconRun, squeezeT]
  rw [if_pos h2]

/-- Full characterisation of the reconstruction rollout when the history
holds at least the first window (lag <= rows of data_mat) and the first
window survives the squeeze of main.py line 178 (lag and channel count at
least 2): with fuel N it returns a final state whose accumulator is
channel-major with the channel count of the ground-truth matrix and exactly
lag + k * horizon columns, where k = callCount is the number of model calls;
the call list is exactly the ground-truth windows at start positions 0,
horizon, 2 * horizon, ...; the accumulator reaches at least N columns; and
its first lag columns are the raw (untransformed) values of the seed window
data_mat[0:lag]. -/
theorem reconRun_spec {α : Type} (fm : SMat α → Nat → SMat α) (dataMat : SMat α)
    (lag horizon N : Nat) (hh : 1 ≤ horizon) (hfm : ∀ w n, (fm w n).rows = n)
    (hT : lag ≤ dataMat.rows) (hl2 : 2 ≤ lag) (hc2 : 2 ≤ dataMat.cols) :
    ∃ st, reconRun fm dataMat lag horizon N N = some st ∧
      st.acc.rows = dataMat.cols ∧
      st.acc.cols = lag + callCount lag horizon N * horizon ∧
      st.startIdx = callCount lag horizon N ∧
      st.calls = (List.range (callCount lag horizon N)).map
        (fun i => (reconWindow dataMat lag horizon i, horizon)) ∧
      N ≤ st.acc.cols ∧
      ∀ i j, j < lag → st.acc.entry i j = dataMat.entry j i := by
  have hrun := reconRun_eq_of_wellFormed fm dataMat lag horizon N N (by
    rw [reconWindow_zero_rows dataMat lag horizon hT, reconWindow_cols]
    omega)
  set w0 := reconWindow dataMat lag horizon 0 with hw0
  have hw0r : w0.rows = lag := reconWindow_zero_rows dataMat lag horizon hT
  set st0 : ReconState α :=
    ⟨hcat (tr w0) (tr (fm w0 horizon)), 1, [(w0, horizon)]⟩ with hst0
  have hc0 : st0.acc.cols = lag + horizon := by
    simp [hst0, hcat_cols, tr_cols, hfm, hw0r]
  have hpre : N ≤ st0.acc.cols + N * horizon := by
    have := Nat.le_mul_of_pos_right N hh
    omega
  obtain ⟨st, heq, hrows, hcols, hsi, hcalls, hent, hN⟩ :=
    reconAfter_spec fm dataMat lag horizon N hh hfm N st0 hpre
  have hkey : 1 + ceilDiv (N - st0.acc.cols) horizon = callCount lag horizon N := by
    rw [hc0]
    exact one_add_ceilDiv_eq_callCount lag horizon N hh
  have hsicalc : st0.startIdx = 1 := rfl
  have hcacalc : st0.calls = [(w0, horizon)] := rfl
  refine ⟨st, by rw [hrun]; exact heq, ?_, ?_, ?_, ?_, hN, ?_⟩
  · rw [hrows]
    simp [hst0, hcat_rows, tr_rows, hw0, reconWindow, rowSlice]
  · rw [hcols, ← hkey]
    have hm1 : (1 + ceilDiv (N - st0.acc.cols) horizon) * horizon =
        ceilDiv (N - st0.acc.cols) horizon * horizon + horizon := by ring
    omega
  · rw [hsi, hsicalc]
    omega
  · have hcc : callCount lag horizon N = ceilDiv (N - st0.acc.cols) horizon + 1 := by
      omega
    rw [hcalls, hcc, range_succ_map_shift, hsicalc, hcacalc, List.singleton_append]
    congr 1
    apply List.map_congr_left
    intro t _
    have ht : 1 + t = t + 1 := by omega
    rw [ht]
  · intro i j hj
    have hjc : j < st0.acc.cols := by omega
    rw [hent i j hjc]
    have hjl : j < (tr w0).cols := by
      rw [tr_cols, hw0r]
      exact hj
    have hacc : st0.acc = hcat (tr w0) (tr (fm w0 horizon)) := rfl
    rw [hacc, hcat_entry_left (tr w0) (tr (fm w0 horizon)) i j hjl]
    simp [tr, hw0, reconWindow, rowSlice, Nat.zero_mul]

/-- Characterisation of the reconstruction rollout without assuming the
history reaches every window, only that the first window survives the
squeeze (lag, history rows and channel count all at least 2): the loop
terminates and reaches at least N columns (the width contributed by each
call is n_out = horizon, fixed by the Forecast Model interface, regardless
of how short the clipped input window is), and the call list is still
exactly the ground-truth windows at start positions 0, horizon,
2 * horizon, ... -/
theorem reconRun_total {α : Type} (fm : SMat α → Nat → SMat α) (dataMat : SMat α)
    (lag horizon N : Nat) (hh : 1 ≤ horizon) (hfm : ∀ w n, (fm w n).rows = n)
    (hl2 : 2 ≤ lag) (hT2 : 2 ≤ dataMat.rows) (hc2 : 2 ≤ dataMat.cols) :
    ∃ st, reconRun fm dataMat lag horizon N N = some st ∧
      N ≤ st.acc.cols ∧
      (colTrim st.acc N).cols = N ∧
      st.calls = (List.range st.startIdx).map
        (fun i => (reconWindow dataMat lag horizon i, horizon)) := by
  have hrun := reconRun_eq_of_wellFormed fm dataMat lag horizon N N (by
    rw [reconWindow_zero_rows_min, reconWindow_cols]
    omega)
  set w0 := reconWindow dataMat lag horizon 0 with hw0
  set st0 : ReconState α :=
    ⟨hcat (tr w0) (tr (fm w0 horizon)), 1, [(w0, horizon)]⟩ with hst0
  have hc0 : st0.acc.cols = w0.rows + horizon := by
    simp [hst0, hcat_cols, tr_cols, hfm]
  have hpre : N ≤ st0.acc.cols + N * horizon := by
    have := Nat.le_mul_of_pos_right N hh
    omega
  obtain ⟨st, heq, hrows, hcols, hsi, hcalls, hent, hN⟩ :=
    reconAfter_spec fm dataMat lag horizon N hh hfm N st0 hpre
  have hsicalc : st0.startIdx = 1 := rfl
  have hcacalc : st0.calls = [(w0, horizon)] := rfl
  refine ⟨st, by rw [hrun]; exact heq, hN, ?_, ?_⟩
  · simp [colTrim]
    omega
  · have hone : st.startIdx = ceilDiv (N - st0.acc.cols) horizon + 1 := by
      rw [hsi, hsicalc]
      omega
    rw [hcalls, hone, range_succ_map_shift, hsicalc, hcacalc, List.singleton_append]
    congr 1
    apply List.map_congr_left
    intro t _
    have ht : 1 + t = t + 1 := by omega
    rw [ht]

/-- C3: in forecast mode (main.py lines 209-219) the engine makes exactly one
Forecast Model call, requesting exactly n output timesteps where n is the
externally determined output_timesteps count (the model horizon never enters
the request, so n may be smaller than it); the assembled matrix has exactly
n rows when the initial-condition flag is unset and n + lag rows when it is
set (pair ids 8 and 9), and in the latter case its first lag rows are the
seed window, the last lag timesteps of the history. -/
theorem claim3_forecast_once {α : Type} (fm : SMat α → Nat → SMat α)
    (dataMat : SMat α) (lag n : Nat) (ic : Bool)
    (hfm : ∀ w m, (fm w m).rows = m ∧ (fm w m).cols = dataMat.cols)
    (hT : lag ≤ dataMat.rows) :
    (forecastAssemble fm dataMat lag n ic).2 = [(lastRows dataMat lag, n)] ∧
    (ic = false → (forecastAssemble fm dataMat lag n ic).1.rows = n) ∧
    (ic = true → (forecastAssemble fm dataMat lag n ic).1.rows = n + lag ∧
      ∀ i j, i < lag →
        (forecastAssemble fm dataMat lag n ic).1.entry i j =
          (lastRows dataMat lag).entry i j) := by
  have hrows : (lastRows dataMat lag).rows = lag := lastRows_rows dataMat lag hT
  refine ⟨rfl, ?_, ?_⟩
  · intro hic
    subst hic
    simp [forecastAssemble]
    exact (hfm _ n).1
  · intro hic
    subst hic
    constructor
    · simp [forecastAssemble, vcat]
      rw [hrows, (hfm _ n).1]
      omega
    · intro i j hi
      simp [forecastAssemble, vcat, hrows, hi]

theorem mainBody_recon_some {α : Type} (dsName : String) (pairId : Nat)
    (d : LoadedData α) (sizeLag sizeHorizon : Nat) (fm : SMat α → Nat → SMat α)
    (fuel : Nat) (hname : dsName ∈ datasetNames) (hp : isRecon pairId = true)
    (st : ReconState α)
    (heq : reconRun fm d.trainMat sizeLag sizeHorizon d.fullSteps fuel = some st) :
    mainBody dsName pairId d sizeLag sizeHorizon fm fuel =
      ⟨RunOutcome.saved (colTrim st.acc d.fullSteps), st.calls⟩ := by
  simp [mainBody, hname, hp, heq]

theorem mainBody_forecast_plain {α : Type} (dsName : String) (pairId : Nat)
    (d : LoadedData α) (sizeLag sizeHorizon : Nat) (fm : SMat α → Nat → SMat α)
    (fuel : Nat) (hname : dsName ∈ datasetNames) (hR : isRecon pairId = false)
    (hI : isIC pairId = false) :
    mainBody dsName pairId d sizeLag sizeHorizon fm fuel =
      ⟨RunOutcome.saved (tr (fm (lastRows d.trainMat sizeLag) d.fullSteps)),
       [(lastRows d.trainMat sizeLag, d.fullSteps)]⟩ := by
  simp [mainBody, forecastAssemble, hname, hR, hI]

theorem mainBody_forecast_ic {α : Type} (dsName : String) (pairId : Nat)
    (d : LoadedData α) (sizeLag sizeHorizon : Nat) (fm : SMat α → Nat → SMat α)
    (fuel : Nat) (hname : dsName ∈ datasetNames) (hR : isRecon pairId = false)
    (hI : isIC pairId = true) :
    mainBody dsName pairId d sizeLag sizeHorizon fm fuel =
      ⟨RunOutcome.saved (tr (vcat (lastRows d.initMat sizeLag)
          (fm (lastRows d.initMat sizeLag) (d.fullSteps - sizeLag)))),
       [(lastRows d.initMat sizeLag, d.fullSteps - sizeLag)]⟩ := by
  simp [mainBody, forecastAssemble, hname, hR, hI]

/-- C7: for every pair id outside the reconstruction set (2, 4) and outside
the initial-condition set (8, 9), and for both validation settings, the
post-training section runs forecast mode on the selected loaded data: a
single model call seeded with the last sizeLag rows of the first training
matrix, requesting the full externally supplied prediction-timestep count,
with no initial-condition prefixing (main.py lines 190-220, the default
else branches). -/
theorem claim7_default_forecast {α : Type} (dsName : String) (pairId : Nat)
    (validation : Bool) (test val : LoadedData α) (sizeLag sizeHorizon : Nat)
    (fm : SMat α → Nat → SMat α) (fuel : Nat)
    (hname : dsName ∈ datasetNames) (h24 : isRecon pairId = false)
    (h89 : isIC pairId = false) :
    mainAfterTraining dsName pairId validation test val sizeLag sizeHorizon fm fuel =
      ⟨RunOutcome.saved (tr (fm (lastRows (if validation then val else test).trainMat sizeLag)
          (if validation then val else test).fullSteps)),
       [(lastRows (if validation then val else test).trainMat sizeLag,
         (if validation then val else test).fullSteps)]⟩ := by
  unfold mainAfterTraining
  exact mainBody_forecast_plain dsName pairId _ sizeLag sizeHorizon fm fuel hname h24 h89

/-- C10: when the dataset name is not one of ODE_Lorenz, PDE_KS, KS_Official,
Lorenz_Official, the guard at main.py line 148 skips the whole post-training
section for every pair id, validation setting and model: no rollout step
runs (the model-call list is empty) and nothing is persisted. -/
theorem claim10_no_output {α : Type} (dsName : String) (pairId : Nat)
    (validation : Bool) (test val : LoadedData α) (sizeLag sizeHorizon : Nat)
    (fm : SMat α → Nat → SMat α) (fuel : Nat)
    (hname : dsName ∉ datasetNames) :
    mainAfterTraining dsName pairId validation test val sizeLag sizeHorizon fm fuel =
      ⟨RunOutcome.noOutput, []⟩ := by
  unfold mainAfterTraining mainBody
  rw [if_neg hname]

/-- C1 (amended): for a valid reconstruction configuration - horizon >= 1, a
Forecast Model honouring the interface (n rows out, channel count of the
data), ground-truth history holding the seed window - and additionally
lag <= N, lag >= 2 and at least 2 channels, the trimmed rollout output has
exactly N timestep columns, the channel count of the ground-truth matrix, at
least lag timestep columns, and its first lag timestep columns are the raw
(untransformed) seed-window values data_mat[0:lag].  When N < lag the output
is trimmed below the seed length, so the first-lag-timesteps clause of the
original claim fails; when lag = 1 or the data has a single channel, the
squeeze at main.py line 178 collapses the seed and the concatenate at line
180 raises, so nothing is returned at all; see the counterexample for both
failures. -/
theorem claim1_recon_output {α : Type} (fm : SMat α → Nat → SMat α)
    (dataMat : SMat α) (lag horizon N : Nat) (hh : 1 ≤ horizon)
    (hfm : ∀ w n, (fm w n).rows = n ∧ (fm w n).cols = dataMat.cols)
    (hT : lag ≤ dataMat.rows) (hlagN : lag ≤ N)
    (hl2 : 2 ≤ lag) (hc2 : 2 ≤ dataMat.cols) :
    ∃ st, reconRun fm dataMat lag horizon N N = some st ∧
      (colTrim st.acc N).cols = N ∧
      (colTrim st.acc N).rows = dataMat.cols ∧
      lag ≤ (colTrim st.acc N).cols ∧
      ∀ i j, j < lag → (colTrim st.acc N).entry i j = dataMat.entry j i := by
  obtain ⟨st, heq, hrows, hcols, hsi, hcalls, hN, hent⟩ :=
    reconRun_spec fm dataMat lag horizon N hh (fun w n => (hfm w n).1) hT hl2 hc2
  refine ⟨st, heq, ?_, ?_, ?_, ?_⟩
  · simp [colTrim]
    omega
  · simpa [colTrim] using hrows
  · simp [colTrim]
    omega
  · intro i j hj
    exact hent i j hj

/-- C2 (amended): for horizon >= 1, a Forecast Model honouring its row
contract, history holding the seed window, lag >= 2 and at least 2 channels
(otherwise the run aborts at main.py line 180 after its first call), the
reconstruction loop terminates (fuel N suffices) and performs exactly
callCount lag horizon N = max 1 (ceil((N - lag) / horizon)) model calls:
the first call already contributes the seed plus one horizon of columns, so
the count is not ceil(N / horizon) in general; see the counterexample. -/
theorem claim2_call_count {α : Type} (fm : SMat α → Nat → SMat α)
    (dataMat : SMat α) (lag horizon N : Nat) (hh : 1 ≤ horizon)
    (hfm : ∀ w n, (fm w n).rows = n) (hT : lag ≤ dataMat.rows)
    (hl2 : 2 ≤ lag) (hc2 : 2 ≤ dataMat.cols) :
    ∃ st, reconRun fm dataMat lag horizon N N = some st ∧
      st.calls.length = callCount lag horizon N ∧
      st.startIdx = callCount lag horizon N := by
  obtain ⟨st, heq, hrows, hcols, hsi, hcalls, hN, hent⟩ :=
    reconRun_spec fm dataMat lag horizon N hh hfm hT hl2 hc2
  refine ⟨st, heq, ?_, hsi⟩
  rw [hcalls]
  simp

/-- C4: the input window of the i-th reconstruction model call is the slice
of the ground-truth matrix of length lag starting at row i * horizon
(main.py line 170), and the sequence of windows is independent of the model:
two engines driven by different Forecast Models feed exactly the same
windows, so no call input is ever taken from the engine's own accumulated
output.  Stated for runs that complete, so with lag and channel count at
least 2 (the line-180 squeeze abort) and the history holding the seed. -/
theorem claim4_ground_truth_windows {α : Type} (fm fm' : SMat α → Nat → SMat α)
    (dataMat : SMat α) (lag horizon N : Nat) (hh : 1 ≤ horizon)
    (hfm : ∀ w n, (fm w n).rows = n) (hfm' : ∀ w n, (fm' w n).rows = n)
    (hT : lag ≤ dataMat.rows) (hl2 : 2 ≤ lag) (hc2 : 2 ≤ dataMat.cols) :
    ∃ st st', reconRun fm dataMat lag horizon N N = some st ∧
      reconRun fm' dataMat lag horizon N N = some st' ∧
      st.calls = (List.range (callCount lag horizon N)).map
        (fun i => (reconWindow dataMat lag horizon i, horizon)) ∧
      st'.calls = st.calls := by
  obtain ⟨st, heq, hrows, hcols, hsi, hcalls, hN, hent⟩ :=
    reconRun_spec fm dataMat lag horizon N hh hfm hT hl2 hc2
  obtain ⟨st', heq', hrows', hcols', hsi', hcalls', hN', hent'⟩ :=
    reconRun_spec fm' dataMat lag horizon N hh hfm' hT hl2 hc2
  exact ⟨st, st', heq, heq', hcalls, by rw [hcalls, hcalls']⟩

/-- C5 (amended): under the valid-configuration hypotheses (including lag and
channel count at least 2, without which the run aborts at main.py line 180)
and lag <= N, the accumulator before the final trim has exactly
lag + k * horizon columns with k = callCount lag horizon N, and the trim
point N satisfies lag + (k - 1) * horizon <= N <= lag + k * horizon: every
trimmed column was produced by the final model call (never an earlier call
and never the seed), and the trim is empty exactly when
N = lag + k * horizon - a condition on N - lag, not on divisibility of N by
horizon; see the counterexample. -/
theorem claim5_trim_bounds {α : Type} (fm : SMat α → Nat → SMat α)
    (dataMat : SMat α) (lag horizon N : Nat) (hh : 1 ≤ horizon)
    (hfm : ∀ w n, (fm w n).rows = n) (hT : lag ≤ dataMat.rows)
    (hlagN : lag ≤ N) (hl2 : 2 ≤ lag) (hc2 : 2 ≤ dataMat.cols) :
    ∃ st, reconRun fm dataMat lag horizon N N = some st ∧
      st.acc.cols = lag + callCount lag horizon N * horizon ∧
      lag + (callCount lag horizon N - 1) * horizon ≤ N ∧
      N ≤ lag + callCount lag horizon N * horizon := by
  obtain ⟨st, heq, hrows, hcols, hsi, hcalls, hN, hent⟩ :=
    reconRun_spec fm dataMat lag horizon N hh hfm hT hl2 hc2
  obtain ⟨hb1, hb2⟩ := callCount_bounds lag horizon N hh hlagN
  exact ⟨st, heq, hcols, hb1, hb2⟩

/-- C6 (amended): the engine performs no history-length check.  When the
first window survives the squeeze of main.py line 178 (lag, history rows and
channel count all at least 2), any later window that runs past the end of
the history is silently clipped by python slicing - possibly to fewer than
lag rows, even zero - and handed to the external model as-is; the loop
completes (fuel N suffices) and still returns exactly N columns.  The engine
does have an internal failure path, but it is unrelated to history
sufficiency: when the first window has one row or the data a single channel,
the squeeze collapses it and the np.concatenate at line 180 raises
ValueError on the very first iteration, for every fuel, even with ample
history. -/
theorem claim6_no_history_check {α : Type} (fm : SMat α → Nat → SMat α)
    (dataMat : SMat α) (lag horizon N : Nat) (hh : 1 ≤ horizon)
    (hfm : ∀ w n, (fm w n).rows = n) :
    (2 ≤ lag → 2 ≤ dataMat.rows → 2 ≤ dataMat.cols →
      ∃ st, reconRun fm dataMat lag horizon N N = some st ∧
        N ≤ st.acc.cols ∧
        (colTrim st.acc N).cols = N ∧
        st.calls = (List.range st.startIdx).map
          (fun i => (reconWindow dataMat lag horizon i, horizon))) ∧
    ((reconWindow dataMat lag horizon 0).rows = 1 ∨ dataMat.cols = 1 →
      ∀ fuel, reconRun fm dataMat lag horizon N fuel = none) := by
  constructor
  · intro hl2 hT2 hc2
    exact reconRun_total fm dataMat lag horizon N hh hfm hl2 hT2 hc2
  · intro h
    exact reconRun_crash fm dataMat lag horizon N h

theorem reconWindow_rows_of_le {α : Type} (A : SMat α) (lag horizon i : Nat)
    (h : i * horizon + lag ≤ A.rows) : (reconWindow A lag horizon i).rows = lag := by
  simp [reconWindow, rowSlice]
  omega

/-- C8 (amended): whenever the run completes and persists a matrix, that
matrix is channel-major: its row count equals the channel count C of the
loaded data and its column count - not its row count - equals the externally
computed required output-timestep count, in every mode (reconstruction trims
the channel-major accumulator to fullSteps columns; forecast transposes the
time-major assembled matrix at main.py line 220, and for pair ids 8 and 9
the prefixed seed makes the total (fullSteps - lag) + lag = fullSteps).  The
transpose of the saved matrix is the time-major matrix with exactly the
required row count.  For the reconstruction pair ids completion requires lag
and channel count at least 2: with a single channel or lag 1 the squeeze at
main.py line 178 makes line 180 raise and nothing is persisted (see the
counterexample). -/
theorem claim8_saved_shape {α : Type} (dsName : String) (pairId : Nat)
    (validation : Bool) (test val d : LoadedData α) (sizeLag sizeHorizon C : Nat)
    (fm : SMat α → Nat → SMat α)
    (hd : (if validation then val else test) = d)
    (hname : dsName ∈ datasetNames) (hh : 1 ≤ sizeHorizon)
    (hfm : ∀ w n, (fm w n).rows = n ∧ (fm w n).cols = C)
    (hTr : sizeLag ≤ d.trainMat.rows) (hTi : sizeLag ≤ d.initMat.rows)
    (hTc : d.trainMat.cols = C) (hIc : d.initMat.cols = C)
    (hLN : sizeLag ≤ d.fullSteps) (hl2 : 2 ≤ sizeLag) (hC2 : 2 ≤ C) :
    ∃ M, savedMatrix (mainAfterTraining dsName pairId validation test val
        sizeLag sizeHorizon fm d.fullSteps) = some M ∧
      M.rows = C ∧ M.cols = d.fullSteps := by
  unfold mainAfterTraining
  rw [hd]
  cases hR : isRecon pairId with
  | true =>
    obtain ⟨st, heq, hrows, hcols, hsi, hcalls, hN, hent⟩ :=
      reconRun_spec fm d.trainMat sizeLag sizeHorizon d.fullSteps hh
        (fun w n => (hfm w n).1) hTr hl2 (by rw [hTc]; exact hC2)
    rw [mainBody_recon_some dsName pairId d sizeLag sizeHorizon fm d.fullSteps
      hname hR st heq]
    refine ⟨colTrim st.acc d.fullSteps, rfl, ?_, ?_⟩
    · show st.acc.rows = C
      rw [hrows]
      exact hTc
    · show min d.fullSteps st.acc.cols = d.fullSteps
      omega
  | false =>
    cases hI : isIC pairId with
    | false =>
      rw [mainBody_forecast_plain dsName pairId d sizeLag sizeHorizon fm d.fullSteps
        hname hR hI]
      refine ⟨tr (fm (lastRows d.trainMat sizeLag) d.fullSteps), rfl, ?_, ?_⟩
      · rw [tr_rows]
        exact (hfm _ _).2
      · rw [tr_cols]
        exact (hfm _ _).1
    | true =>
      rw [mainBody_forecast_ic dsName pairId d sizeLag sizeHorizon fm d.fullSteps
        hname hR hI]
      refine ⟨tr (vcat (lastRows d.initMat sizeLag)
        (fm (lastRows d.initMat sizeLag) (d.fullSteps - sizeLag))), rfl, ?_, ?_⟩
      · rw [tr_rows]
        show (lastRows d.initMat sizeLag).cols = C
        rw [lastRows_cols]
        exact hIc
      · rw [tr_cols]
        show (lastRows d.initMat sizeLag).rows + (fm _ _).rows = d.fullSteps
        rw [lastRows_rows d.initMat sizeLag hTi, (hfm _ _).1]
        omega

/-- C9: the lag and horizon that drive window extraction, loop stepping and
the pair-id-8/9 prefix are the dataset size metadata size[0] and size[2]
(main.py lines 153-154), not the args.lag / args.horizon the model object
was configured with (lines 87-88): for every argsLag and argsHorizon, every
window handed to the model has size[0] rows, reconstruction windows start at
multiples of size[2], and the 8/9 prefix is the size[0]-row tail of the
initial-condition matrix.  Stated for runs that complete: the reconstruction
conjuncts require size[0] and the channel count to be at least 2, since
otherwise the squeeze at main.py line 178 aborts the run at line 180 after
its first call. -/
theorem claim9_engine_uses_size {α : Type} (dsName : String) (pairId : Nat)
    (validation : Bool) (test val d : LoadedData α) (dsSize : List Nat)
    (argsLag argsHorizon : Nat) (mkModel : Nat → Nat → SMat α → Nat → SMat α)
    (hd : (if validation then val else test) = d)
    (hname : dsName ∈ datasetNames)
    (hh : 1 ≤ dsSize.getD 2 0)
    (hfm : ∀ a b w n, (mkModel a b w n).rows = n)
    (hTr : (callCount (dsSize.getD 0 0) (dsSize.getD 2 0) d.fullSteps - 1) * dsSize.getD 2 0
        + dsSize.getD 0 0 ≤ d.trainMat.rows)
    (hTi : dsSize.getD 0 0 ≤ d.initMat.rows)
    (hl2 : 2 ≤ dsSize.getD 0 0) (hC2 : 2 ≤ d.trainMat.cols) :
    (∀ c ∈ (mainWithArgs dsName pairId validation test val dsSize argsLag argsHorizon
        mkModel d.fullSteps).calls, c.1.rows = dsSize.getD 0 0) ∧
    (isRecon pairId = true →
      (mainWithArgs dsName pairId validation test val dsSize argsLag argsHorizon
        mkModel d.fullSteps).calls =
        (List.range (callCount (dsSize.getD 0 0) (dsSize.getD 2 0) d.fullSteps)).map
          (fun i => (reconWindow d.trainMat (dsSize.getD 0 0) (dsSize.getD 2 0) i,
            dsSize.getD 2 0))) ∧
    (isIC pairId = true →
      savedMatrix (mainWithArgs dsName pairId validation test val dsSize argsLag argsHorizon
          mkModel d.fullSteps) =
        some (tr (vcat (lastRows d.initMat (dsSize.getD 0 0))
          (mkModel argsLag argsHorizon (lastRows d.initMat (dsSize.getD 0 0))
            (d.fullSteps - dsSize.getD 0 0)))) ∧
      (lastRows d.initMat (dsSize.getD 0 0)).rows = dsSize.getD 0 0) := by
  have hLrows : dsSize.getD 0 0 ≤ d.trainMat.rows := by
    omega
  unfold mainWithArgs mainAfterTraining
  rw [hd]
  cases hR : isRecon pairId with
  | true =>
    obtain ⟨st, heq, hrows, hcols, hsi, hcalls, hN, hent⟩ :=
      reconRun_spec (mkModel argsLag argsHorizon) d.trainMat
        (dsSize.getD 0 0) (dsSize.getD 2 0) d.fullSteps hh
        (hfm argsLag argsHorizon) hLrows hl2 hC2
    rw [mainBody_recon_some dsName pairId d (dsSize.getD 0 0) (dsSize.getD 2 0)
      (mkModel argsLag argsHorizon) d.fullSteps hname hR st heq]
    refine ⟨?_, ?_, ?_⟩
    · intro c hc
      rw [hcalls] at hc
      simp only [List.mem_map, List.mem_range] at hc
      obtain ⟨i, hi, hceq⟩ := hc
      rw [← hceq]
      apply reconWindow_rows_of_le
      have hik : i ≤ callCount (dsSize.getD 0 0) (dsSize.getD 2 0) d.fullSteps - 1 := by
        omega
      have hmul : i * dsSize.getD 2 0 ≤
          (callCount (dsSize.getD 0 0) (dsSize.getD 2 0) d.fullSteps - 1) * dsSize.getD 2 0 :=
        Nat.mul_le_mul_right _ hik
      omega
    · intro _
      exact hcalls
    · intro hcontra
      have h24 : pairId = 2 ∨ pairId = 4 := by
        simpa [isRecon] using hR
      have h89 : pairId = 8 ∨ pairId = 9 := by
        simpa [isIC] using hcontra
      omega
  | false =>
    cases hI : isIC pairId with
    | false =>
      rw [mainBody_forecast_plain dsName pairId d (dsSize.getD 0 0) (dsSize.getD 2 0)
        (mkModel argsLag argsHorizon) d.fullSteps hname hR hI]
      refine ⟨?_, ?_, ?_⟩
      · intro c hc
        rw [List.mem_singleton] at hc
        rw [hc]
        exact lastRows_rows d.trainMat (dsSize.getD 0 0) hLrows
      · intro hcontra
        simp at hcontra
      · intro hcontra
        simp at hcontra
    | true =>
      rw [mainBody_forecast_ic dsName pairId d (dsSize.getD 0 0) (dsSize.getD 2 0)
        (mkModel argsLag argsHorizon) d.fullSteps hname hR hI]
      refine ⟨?_, ?_, ?_⟩
      · intro c hc
        rw [List.mem_singleton] at hc
        rw [hc]
        exact lastRows_rows d.initMat (dsSize.getD 0 0) hTi
      · intro hcontra
        simp at hcontra
      · intro _
        exact ⟨rfl, lastRows_rows d.initMat (dsSize.getD 0 0) hTi⟩

/-- A concrete Forecast Model for witnesses and counterexamples: it returns
the requested number of rows with c channels, every entry the constant v. -/
def constModel (c : Nat) (v : Int) : SMat Int → Nat → SMat Int :=
  fun _ n => ⟨n, c, fun _ _ => v⟩

/-- A concrete ground-truth matrix with r timesteps and c channels whose
entries encode their position, so prefix claims are substantive. -/
def rampMat (r c : Nat) : SMat Int :=
  ⟨r, c, fun i j => (i : Int) * 100 + (j : Int)⟩

/-- C1 counterexample, two failures of the original claim.  First: lag 2,
horizon 1, N 1 on two-channel data is a valid configuration (lag, horizon, N
all at least 1, history of 6 rows ample), yet the trimmed rollout output has
exactly 1 timestep column, fewer than lag, so its first lag timesteps cannot
equal the 2-row seed window.  Second: on single-channel data the squeeze at
main.py line 178 collapses the seed and line 180's concatenate raises, so no
matrix is returned at all. -/
theorem claim1_counterexample :
    ((reconRun (constModel 2 0) (rampMat 6 2) 2 1 1 1).map
      (fun st => (colTrim st.acc 1).cols) = some 1 ∧ ¬ (2 ≤ 1)) ∧
    reconRun (constModel 1 0) (rampMat 6 1) 2 1 1 1 = none :=
  ⟨⟨rfl, by decide⟩, rfl⟩

/-- C1 witness: the amended theorem applied at lag 2, horizon 2, N 5 on a
20-row two-channel history. -/
theorem claim1_witness :
    ∃ st, reconRun (constModel 2 0) (rampMat 20 2) 2 2 5 5 = some st ∧
      (colTrim st.acc 5).cols = 5 ∧
      (colTrim st.acc 5).rows = (rampMat 20 2).cols ∧
      2 ≤ (colTrim st.acc 5).cols ∧
      ∀ i j, j < 2 → (colTrim st.acc 5).entry i j = (rampMat 20 2).entry j i :=
  claim1_recon_output (constModel 2 0) (rampMat 20 2) 2 2 5 (by decide)
    (fun w n => ⟨rfl, rfl⟩) (by decide) (by decide) (by decide) (by decide)

/-- C2 counterexample, two failures of the original claim.  First: with lag
10, horizon 5, N 12 on two-channel data the loop stops after a single model
call (the seed plus one horizon already gives 15 >= 12 columns), while
ceil(N / horizon) = ceil(12 / 5) = 3: the claimed call count is wrong.
Second: on single-channel data the run aborts at main.py line 180 (squeeze
at line 178) and never terminates normally at all. -/
theorem claim2_counterexample :
    ((reconRun (constModel 2 0) (rampMat 30 2) 10 5 12 12).map ReconState.startIdx =
      some 1 ∧ ceilDiv 12 5 = 3 ∧ (1 : Nat) ≠ 3) ∧
    reconRun (constModel 1 0) (rampMat 30 1) 10 5 12 12 = none :=
  ⟨⟨rfl, by decide, by decide⟩, rfl⟩

/-- C2 witness: the amended count at lag 3, horizon 5, N 10 on two-channel
data, where callCount 3 5 10 = max 1 (ceil(7 / 5)) = 2. -/
theorem claim2_witness :
    ∃ st, reconRun (constModel 2 0) (rampMat 30 2) 3 5 10 10 = some st ∧
      st.calls.length = callCount 3 5 10 ∧
      st.startIdx = callCount 3 5 10 :=
  claim2_call_count (constModel 2 0) (rampMat 30 2) 3 5 10 (by decide)
    (fun w n => rfl) (by decide) (by decide) (by decide)

/-- C3 witness: the forecast-mode theorem applied with lag 2 and n 3 on a
6-row two-channel history with the initial-condition flag set. -/
theorem claim3_witness :
    (forecastAssemble (constModel 2 0) (rampMat 6 2) 2 3 true).2 =
      [(lastRows (rampMat 6 2) 2, 3)] ∧
    (true = false → (forecastAssemble (constModel 2 0) (rampMat 6 2) 2 3 true).1.rows = 3) ∧
    (true = true → (forecastAssemble (constModel 2 0) (rampMat 6 2) 2 3 true).1.rows = 3 + 2 ∧
      ∀ i j, i < 2 →
        (forecastAssemble (constModel 2 0) (rampMat 6 2) 2 3 true).1.entry i j =
          (lastRows (rampMat 6 2) 2).entry i j) :=
  claim3_forecast_once (constModel 2 0) (rampMat 6 2) 2 3 true
    (fun w m => ⟨rfl, rfl⟩) (by decide)

/-- C4 witness: two engines driven by models that disagree everywhere (one
returns zeros, the other sevens) still feed identical ground-truth windows,
at lag 2, horizon 2, N 5 on a 20-row two-channel history. -/
theorem claim4_witness :
    ∃ st st', reconRun (constModel 2 0) (rampMat 20 2) 2 2 5 5 = some st ∧
      reconRun (constModel 2 7) (rampMat 20 2) 2 2 5 5 = some st' ∧
      st.calls = (List.range (callCount 2 2 5)).map
        (fun i => (reconWindow (rampMat 20 2) 2 2 i, 2)) ∧
      st'.calls = st.calls :=
  claim4_ground_truth_windows (constModel 2 0) (constModel 2 7) (rampMat 20 2)
    2 2 5 (by decide) (fun w n => rfl) (fun w n => rfl) (by decide) (by decide)
    (by decide)

/-- C5 counterexample, two failures of the original claim.  First: lag 3,
horizon 5, N 10 on two-channel data: horizon divides N, yet the accumulator
before the trim has 13 columns, not 10, so the claimed "no trimming when
horizon divides N" boundary is wrong.  Second: on single-channel data no
pre-trim accumulator exists at all - the run aborts at main.py line 180
(squeeze at line 178) on its first iteration. -/
theorem claim5_counterexample :
    ((reconRun (constModel 2 0) (rampMat 30 2) 3 5 10 10).map
      (fun st => st.acc.cols) = some 13 ∧ 10 % 5 = 0 ∧ (13 : Nat) ≠ 10) ∧
    reconRun (constModel 1 0) (rampMat 30 1) 3 5 10 10 = none :=
  ⟨⟨rfl, by decide, by decide⟩, rfl⟩

/-- C5 witness: the amended trim bounds at lag 3, horizon 5, N 10 on
two-channel data. -/
theorem claim5_witness :
    ∃ st, reconRun (constModel 2 0) (rampMat 30 2) 3 5 10 10 = some st ∧
      st.acc.cols = 3 + callCount 3 5 10 * 5 ∧
      3 + (callCount 3 5 10 - 1) * 5 ≤ 10 ∧
      10 ≤ 3 + callCount 3 5 10 * 5 :=
  claim5_trim_bounds (constModel 2 0) (rampMat 30 2) 3 5 10 (by decide)
    (fun w n => rfl) (by decide) (by decide) (by decide) (by decide)

/-- C6 counterexample: lag 2, horizon 2, N 5 over a two-channel history of
only 3 rows: the second call's window (rows 2 to 4 of a 3-row matrix) is
silently clipped to a single row - shorter than lag - yet the rollout
completes without any error and returns a 5-column matrix: the engine does
not fail loudly on insufficient history. -/
theorem claim6_counterexample :
    (reconRun (constModel 2 0) (rampMat 3 2) 2 2 5 5).map
      (fun st => ((colTrim st.acc 5).cols, st.calls.map (fun c => c.1.rows))) =
      some (5, [2, 1]) ∧ (1 : Nat) < 2 :=
  ⟨rfl, by decide⟩

/-- C6 witness: the amended theorem applied at the short two-channel history
(3 rows, lag 2, horizon 2, N 5): the completion part's premises hold and the
crash part's premise is false there. -/
theorem claim6_witness :
    (2 ≤ 2 → 2 ≤ (rampMat 3 2).rows → 2 ≤ (rampMat 3 2).cols →
      ∃ st, reconRun (constModel 2 0) (rampMat 3 2) 2 2 5 5 = some st ∧
        5 ≤ st.acc.cols ∧
        (colTrim st.acc 5).cols = 5 ∧
        st.calls = (List.range st.startIdx).map
          (fun i => (reconWindow (rampMat 3 2) 2 2 i, 2))) ∧
    ((reconWindow (rampMat 3 2) 2 2 0).rows = 1 ∨ (rampMat 3 2).cols = 1 →
      ∀ fuel, reconRun (constModel 2 0) (rampMat 3 2) 2 2 5 fuel = none) :=
  claim6_no_history_check (constModel 2 0) (rampMat 3 2) 2 2 5 (by decide)
    (fun w n => rfl)

/-- C7 witness: pair id 5 (outside both special sets) on ODE_Lorenz without
validation: plain forecast mode seeded from the training matrix tail. -/
theorem claim7_witness :
    mainAfterTraining "ODE_Lorenz" 5 false
      ⟨rampMat 6 1, rampMat 4 1, 7⟩ ⟨rampMat 9 1, rampMat 9 1, 9⟩ 2 3
      (constModel 1 0) 7 =
      ⟨RunOutcome.saved (tr (constModel 1 0
          (lastRows (rampMat 6 1 : SMat Int) 2) 7)),
       [(lastRows (rampMat 6 1 : SMat Int) 2, 7)]⟩ :=
  claim7_default_forecast "ODE_Lorenz" 5 false
    ⟨rampMat 6 1, rampMat 4 1, 7⟩ ⟨rampMat 9 1, rampMat 9 1, 9⟩ 2 3
    (constModel 1 0) 7 (by decide) (by decide) (by decide)

/-- C8 counterexample, two failures of the original claim.  First: a
forecast run on ODE_Lorenz with 2 channels and a required output-timestep
count of 3 persists a matrix with 2 rows and 3 columns: its row count is the
channel count, not the required timestep count, refuting the claimed
time-major orientation.  Second: a reconstruction run (pair id 2) on
single-channel data persists nothing at all - the run aborts at main.py line
180 (squeeze at line 178) before torch.save. -/
theorem claim8_counterexample :
    ((savedMatrix (mainAfterTraining "ODE_Lorenz" 1 false
        ⟨rampMat 5 2, rampMat 5 2, 3⟩ ⟨rampMat 5 2, rampMat 5 2, 3⟩ 2 1
        (constModel 2 0) 3)).map (fun m => (m.rows, m.cols)) = some (2, 3) ∧
    (2 : Nat) ≠ 3) ∧
    savedMatrix (mainAfterTraining "ODE_Lorenz" 2 false
        ⟨rampMat 5 1, rampMat 5 1, 3⟩ ⟨rampMat 5 1, rampMat 5 1, 3⟩ 2 1
        (constModel 1 0) 3) = none :=
  ⟨⟨rfl, by decide⟩, rfl⟩

/-- C8 witness: the amended shape theorem applied to a reconstruction run
(pair id 2) on PDE_KS under validation, 2 channels, 12 output timesteps. -/
theorem claim8_witness :
    ∃ M, savedMatrix (mainAfterTraining "PDE_KS" 2 true
        ⟨rampMat 7 2, rampMat 7 2, 4⟩ ⟨rampMat 30 2, rampMat 10 2, 12⟩ 3 5
        (constModel 2 0)
        (LoadedData.fullSteps (⟨rampMat 30 2, rampMat 10 2, 12⟩ : LoadedData Int))) =
        some M ∧
      M.rows = 2 ∧
      M.cols = LoadedData.fullSteps (⟨rampMat 30 2, rampMat 10 2, 12⟩ : LoadedData Int) :=
  claim8_saved_shape "PDE_KS" 2 true
    ⟨rampMat 7 2, rampMat 7 2, 4⟩ ⟨rampMat 30 2, rampMat 10 2, 12⟩
    ⟨rampMat 30 2, rampMat 10 2, 12⟩ 3 5 2 (constModel 2 0) rfl (by decide)
    (by decide) (fun w n => ⟨rfl, rfl⟩) (by decide) (by decide) rfl rfl (by decide)
    (by decide) (by decide)

/-- C9 witness: the dataset size metadata is [2, 999, 5] - so the engine lag
is 2 and the engine horizon is 5 - while the model is configured with
argsLag 7 and argsHorizon 11; pair id 8 exercises the initial-condition
prefix on two-channel data.  All windows still have 2 rows. -/
theorem claim9_witness :
    (∀ c ∈ (mainWithArgs "KS_Official" 8 false
        ⟨rampMat 30 2, rampMat 8 2, 12⟩ ⟨rampMat 5 2, rampMat 5 2, 5⟩
        [2, 999, 5] 7 11 (fun _ _ => constModel 2 0)
        (LoadedData.fullSteps (⟨rampMat 30 2, rampMat 8 2, 12⟩ : LoadedData Int))).calls,
      c.1.rows = ([2, 999, 5] : List Nat).getD 0 0) ∧
    (isRecon 8 = true →
      (mainWithArgs "KS_Official" 8 false
        ⟨rampMat 30 2, rampMat 8 2, 12⟩ ⟨rampMat 5 2, rampMat 5 2, 5⟩
        [2, 999, 5] 7 11 (fun _ _ => constModel 2 0)
        (LoadedData.fullSteps (⟨rampMat 30 2, rampMat 8 2, 12⟩ : LoadedData Int))).calls =
        (List.range (callCount (([2, 999, 5] : List Nat).getD 0 0)
            (([2, 999, 5] : List Nat).getD 2 0)
            (LoadedData.fullSteps (⟨rampMat 30 2, rampMat 8 2, 12⟩ : LoadedData Int)))).map
          (fun i => (reconWindow (LoadedData.trainMat
              (⟨rampMat 30 2, rampMat 8 2, 12⟩ : LoadedData Int))
            (([2, 999, 5] : List Nat).getD 0 0) (([2, 999, 5] : List Nat).getD 2 0) i,
            ([2, 999, 5] : List Nat).getD 2 0))) ∧
    (isIC 8 = true →
      savedMatrix (mainWithArgs "KS_Official" 8 false
          ⟨rampMat 30 2, rampMat 8 2, 12⟩ ⟨rampMat 5 2, rampMat 5 2, 5⟩
          [2, 999, 5] 7 11 (fun _ _ => constModel 2 0)
          (LoadedData.fullSteps (⟨rampMat 30 2, rampMat 8 2, 12⟩ : LoadedData Int))) =
        some (tr (vcat (lastRows (LoadedData.initMat
            (⟨rampMat 30 2, rampMat 8 2, 12⟩ : LoadedData Int))
            (([2, 999, 5] : List Nat).getD 0 0))
          ((fun _ _ => constModel 2 0 : Nat → Nat → SMat Int → Nat → SMat Int) 7 11
            (lastRows (LoadedData.initMat
              (⟨rampMat 30 2, rampMat 8 2, 12⟩ : LoadedData Int))
              (([2, 999, 5] : List Nat).getD 0 0))
            (LoadedData.fullSteps (⟨rampMat 30 2, rampMat 8 2, 12⟩ : LoadedData Int) -
              ([2, 999, 5] : List Nat).getD 0 0)))) ∧
      (lastRows (LoadedData.initMat (⟨rampMat 30 2, rampMat 8 2, 12⟩ : LoadedData Int))
        (([2, 999, 5] : List Nat).getD 0 0)).rows = ([2, 999, 5] : List Nat).getD 0 0) :=
  claim9_engine_uses_size "KS_Official" 8 false
    ⟨rampMat 30 2, rampMat 8 2, 12⟩ ⟨rampMat 5 2, rampMat 5 2, 5⟩
    ⟨rampMat 30 2, rampMat 8 2, 12⟩ [2, 999, 5] 7 11 (fun _ _ => constModel 2 0)
    rfl (by decide) (by decide) (fun a b w n => rfl) (by decide) (by decide)
    (by decide) (by decide)

/-- C10 witness: the dataset name Lorenz is not in the guard list, so nothing
is persisted and no model call happens, here with pair id 2 and validation
set. -/
theorem claim10_witness :
    mainAfterTraining "Lorenz" 2 true
      ⟨rampMat 3 1, rampMat 3 1, 4⟩ ⟨rampMat 3 1, rampMat 3 1, 4⟩ 1 1
      (constModel 1 0) 4 = ⟨RunOutcome.noOutput, []⟩ :=
  claim10_no_output "Lorenz" 2 true
    ⟨rampMat 3 1, rampMat 3 1, 4⟩ ⟨rampMat 3 1, rampMat 3 1, 4⟩ 1 1
    (constModel 1 0) 4 (by decide)

end SpacetimeRollout
